import Mathlib

/-!
Verification of the planner repository (src/planner-gui.py), a desktop
to-do list: a `ToDoList` store holding an ordered list of task records
(dicts with keys title, description, completed, due_date), persisted as
JSON, and a GUI layer (`ToDoApp`) that renders the list and dispatches
add / mark-completed / delete actions.

The Python code is shallowly embedded below:
- a task dict becomes the structure `Task`; the `due_date` key can be a
  string, Python `None`, or missing altogether from a record read from
  disk, so that field is the three-valued `DueField`;
- the `json` standard library is modelled at the level of parsed JSON
  values (`Json`): a file on disk either holds text that parses to some
  JSON value (`FileData.jsonText`) or text that does not parse at all
  (`FileData.malformed`); the filesystem is a map from paths to files;
- Python exceptions are modelled with `Except`: `load_tasks` returns
  `Except.error` exactly when `json.load` raises an error that the
  method does not catch, and `load_tasks_run` records that in that case
  the assignment `self.tasks = json.load(file)` never executed, so the
  in-memory list keeps its prior value.
-/

namespace Planner

/-- A parsed JSON value, as produced by `json.load` / consumed by
`json.dump`. Numbers never occur in this application's data and are
omitted. -/
inductive Json where
  | null
  | bool (b : Bool)
  | str (s : String)
  | arr (elems : List Json)
  | obj (fields : List (String × Json))

/-- The `due_date` entry of a task dict: the key can be absent from a
record read from disk, or present with Python `None`, or present with a
date string. Records created by `ToDoList.add_task` always have the key
present. -/
inductive DueField where
  | missing
  | null
  | date (s : String)
deriving DecidableEq, Repr

/-- The Python value passed as the `due_date` argument (`None` or a
string) stored under a present `due_date` key. -/
def DueField.ofArg : Option String → DueField
  | Option.none => DueField.null
  | Option.some s => DueField.date s

/-- One task dict, as built by `ToDoList.add_task`:
`{"title": title, "description": description, "completed": False, "due_date": due_date}`. -/
structure Task where
  title : String
  description : String
  completed : Bool
  due_date : DueField
deriving DecidableEq, Repr

/-- `ToDoList.__init__`: `self.tasks = []`. -/
def init_tasks : List Task := []

/-- `ToDoList.add_task(title, description="", due_date=None)`:
`self.tasks.append({"title": title, "description": description, "completed": False, "due_date": due_date})`. -/
def add_task (tasks : List Task) (title description : String) (due_date : Option String) :
    List Task :=
  tasks ++ [{ title := title, description := description, completed := false,
              due_date := DueField.ofArg due_date }]

/-- `ToDoList.view_tasks`: `return self.tasks`. -/
def view_tasks (tasks : List Task) : List Task := tasks

/-- The in-place element update `self.tasks[i]["completed"] = True`
performed by `mark_completed` once its bounds check has passed (`i` is
the checked, hence non-negative, index). -/
def setCompleted : List Task → Nat → List Task
  | [], _ => []
  | t :: ts, 0 => { t with completed := true } :: ts
  | t :: ts, Nat.succ n => t :: setCompleted ts n

/-- `ToDoList.mark_completed(task_index)`:
`if 0 <= task_index < len(self.tasks): self.tasks[task_index]["completed"] = True`.
The index is a Python integer, so it is embedded as `Int`. -/
def mark_completed (tasks : List Task) (task_index : Int) : List Task :=
  if 0 ≤ task_index ∧ task_index < (tasks.length : Int) then
    setCompleted tasks task_index.toNat
  else
    tasks

/-- The in-place removal `self.tasks.pop(i)` performed by `delete_task`
once its bounds check has passed. -/
def pop_at : List Task → Nat → List Task
  | [], _ => []
  | _ :: ts, 0 => ts
  | t :: ts, Nat.succ n => t :: pop_at ts n

/-- `ToDoList.delete_task(task_index)`:
`if 0 <= task_index < len(self.tasks): self.tasks.pop(task_index)`. -/
def delete_task (tasks : List Task) (task_index : Int) : List Task :=
  if 0 ≤ task_index ∧ task_index < (tasks.length : Int) then
    pop_at tasks task_index.toNat
  else
    tasks

/-- The JSON value `json.dump` writes for one task dict. Python dicts
keep insertion order, and a `due_date` key that is absent from the dict
is simply not written. -/
def encodeTask (t : Task) : Json :=
  Json.obj
    ([("title", Json.str t.title), ("description", Json.str t.description),
      ("completed", Json.bool t.completed)] ++
     (match t.due_date with
      | DueField.missing => []
      | DueField.null => [("due_date", Json.null)]
      | DueField.date s => [("due_date", Json.str s)]))

/-- The JSON value `json.dump(self.tasks, file)` writes for the whole
list. -/
def encodeTasks (ts : List Task) : Json :=
  Json.arr (ts.map encodeTask)

/-- Reading the `due_date` key back out of a parsed record:
absent key, JSON `null`, or a string. -/
def decodeDue : Option Json → Option DueField
  | Option.none => some DueField.missing
  | some Json.null => some DueField.null
  | some (Json.str s) => some (DueField.date s)
  | some _ => none

/-- Reading one parsed JSON record back into a task dict: the shape the
rest of the program accesses (`task["title"]`, `task["description"]`,
`task["completed"]`, `task.get("due_date", ...)`). -/
def decodeTask (j : Json) : Option Task :=
  match j with
  | Json.obj fields =>
    match fields.lookup "title", fields.lookup "description",
          fields.lookup "completed", decodeDue (fields.lookup "due_date") with
    | some (Json.str ti), some (Json.str de), some (Json.bool co), some dd =>
      some { title := ti, description := de, completed := co, due_date := dd }
    | _, _, _, _ => none
  | _ => none

/-- Reading a parsed JSON array back into a list of task dicts. -/
def decodeList : List Json → Option (List Task)
  | [] => some []
  | j :: js =>
    match decodeTask j, decodeList js with
    | some t, some ts => some (t :: ts)
    | _, _ => none

/-- Reading the parsed value of a whole tasks file. -/
def decodeTasks (j : Json) : Option (List Task) :=
  match j with
  | Json.arr elems => decodeList elems
  | _ => none

/-- The contents of one file on disk: text that parses as the JSON value
`j`, or text that `json.load` fails to parse. -/
inductive FileData where
  | jsonText (j : Json)
  | malformed

/-- The filesystem: a map from path to file contents (`none` = no file
exists at that path, so `open(path)` raises `FileNotFoundError`). -/
def Filesystem : Type := String → Option FileData

/-- `ToDoList.save_tasks(filename)`:
`with open(filename, "w") as file: json.dump(self.tasks, file)` —
a full overwrite of the file at `filename`. -/
def save_tasks (fs : Filesystem) (tasks : List Task) (filename : String) : Filesystem :=
  fun p => if p = filename then some (FileData.jsonText (encodeTasks tasks)) else fs p

/-- `ToDoList.load_tasks(filename)`:
`try: self.tasks = json.load(open(filename)) except FileNotFoundError: self.tasks = []`.
`Except.ok ts` is the value assigned to `self.tasks`; `Except.error ()`
is an exception other than `FileNotFoundError` escaping the method
(`json.load` raising on malformed text, or — a limit of this typed
embedding — well-formed JSON that is not a list of task records, which
Python would assign verbatim). -/
def load_tasks (fs : Filesystem) (filename : String) : Except Unit (List Task) :=
  match fs filename with
  | Option.none => Except.ok []
  | some FileData.malformed => Except.error ()
  | some (FileData.jsonText j) =>
    match decodeTasks j with
    | some ts => Except.ok ts
    | Option.none => Except.error ()

/-- The state of `self.tasks` after one `load_tasks` call, together with
whether an exception propagated out of the call. When `json.load`
raises, it does so before the assignment `self.tasks = ...` executes, so
the prior list is kept. -/
def load_tasks_run (fs : Filesystem) (prior : List Task) (filename : String) :
    List Task × Bool :=
  match load_tasks fs filename with
  | Except.ok ts => (ts, false)
  | Except.error _ => (prior, true)

/-- The status string of `ToDoApp.update_task_list`:
`status = "Done" if task["completed"] else "Not Done"`. -/
def status_text (completed : Bool) : String :=
  if completed then "Done" else "Not Done"

/-- The due-date string of `ToDoApp.update_task_list`:
`due_date = task.get("due_date", "No due date")`. The `dict.get` default
fires only when the key is absent; a key holding `None` is returned
as-is and the f-string then renders it as the text `None`. -/
def render_due (d : DueField) : String :=
  match d with
  | DueField.missing => "No due date"
  | DueField.null => "None"
  | DueField.date s => s

/-- One displayed row of `ToDoApp.update_task_list`:
`item_text = f"{idx + 1}. {task['title']} - {status}\n {task['description']}\n Due: {due_date}"`. -/
def item_text (idx : Nat) (t : Task) : String :=
  toString (idx + 1) ++ ". " ++ t.title ++ " - " ++ status_text t.completed ++
    "\n " ++ t.description ++ "\n Due: " ++ render_due t.due_date

/-- The rows produced by the `for idx, task in enumerate(...)` loop of
`ToDoApp.update_task_list`, starting at position `idx`. -/
def render_from (idx : Nat) : List Task → List String
  | [] => []
  | t :: ts => item_text idx t :: render_from (idx + 1) ts

/-- `ToDoApp.update_task_list`: clears the list widget and re-renders
every task, in sequence order, starting at position 0. -/
def update_task_list (tasks : List Task) : List String :=
  render_from 0 tasks

/-- The state `ToDoApp.add_task` reads and writes: the store's task
list, the three input widgets (`date_input` already formatted by
`date().toString("yyyy-MM-dd")`), the rendered list widget, the
filesystem touched by `save_tasks`, and the message box raised by
`QMessageBox.warning`, if any, during the event. -/
structure AppState where
  tasks : List Task
  task_input : String
  desc_input : String
  date_input : String
  rendered : List String
  fs : Filesystem
  warning : Option String

/-- `ToDoApp.add_task`: reads the three fields; on a non-empty title it
calls `ToDoList.add_task`, re-renders, clears the title and description
inputs (the date input is untouched) and saves to `tasks.json`;
otherwise it only shows the warning box. -/
def ToDoApp.add_task (st : AppState) : AppState :=
  let title := st.task_input
  let description := st.desc_input
  let due_date := st.date_input
  if title ≠ "" then
    let tasks2 := Planner.add_task st.tasks title description (some due_date)
    { st with
      tasks := tasks2
      rendered := update_task_list tasks2
      task_input := ""
      desc_input := ""
      fs := save_tasks st.fs tasks2 "tasks.json"
      warning := Option.none }
  else
    { st with warning := some "Task title cannot be empty" }

/-- One store mutation, as dispatched by the presentation layer. -/
inductive Op where
  | add (title description : String) (due_date : Option String)
  | mark (task_index : Int)
  | del (task_index : Int)

/-- Applying one store mutation to the task list. -/
def apply_op (tasks : List Task) : Op → List Task
  | Op.add title description due_date => add_task tasks title description due_date
  | Op.mark i => mark_completed tasks i
  | Op.del i => delete_task tasks i

/-- Sample task used by concrete witnesses. -/
def taskA : Task :=
  { title := "A", description := "milk", completed := false,
    due_date := DueField.date "2025-01-10" }

/-- Sample task used by concrete witnesses. -/
def taskB : Task :=
  { title := "B", description := "", completed := false, due_date := DueField.null }

/-- Sample task used by concrete witnesses. -/
def taskC : Task :=
  { title := "C", description := "call", completed := true, due_date := DueField.missing }

/-- Sample application state (empty title typed in) used by a concrete
witness. -/
def emptyTitleSt : AppState :=
  { tasks := [taskA], task_input := "", desc_input := "d", date_input := "2025-02-02",
    rendered := update_task_list [taskA], fs := fun _ => Option.none,
    warning := Option.none }

/-- Sample application state (non-empty title typed in) used by a
concrete witness. -/
def goodSt : AppState :=
  { tasks := [taskA], task_input := "Buy milk", desc_input := "2%",
    date_input := "2025-01-10", rendered := update_task_list [taskA],
    fs := fun _ => Option.none, warning := Option.none }

theorem length_setCompleted (l : List Task) (i : Nat) :
    (setCompleted l i).length = l.length := by
  induction l generalizing i with
  | nil => rfl
  | cons t ts ih => cases i <;> simp [setCompleted, ih]

theorem getElem?_setCompleted (l : List Task) (i j : Nat) :
    (setCompleted l i)[j]? =
      if j = i then (l[j]?).map (fun t => { t with completed := true }) else l[j]? := by
  induction l generalizing i j with
  | nil => simp [setCompleted]
  | cons t ts ih =>
    cases i with
    | zero => cases j <;> simp [setCompleted]
    | succ n => cases j <;> simp [setCompleted, ih]

theorem setCompleted_setCompleted (l : List Task) (i : Nat) :
    setCompleted (setCompleted l i) i = setCompleted l i := by
  induction l generalizing i with
  | nil => rfl
  | cons t ts ih => cases i <;> simp [setCompleted, ih]

theorem pop_at_eq_take_append_drop (l : List Task) (i : Nat) :
    pop_at l i = l.take i ++ l.drop (i + 1) := by
  induction l generalizing i with
  | nil => simp [pop_at]
  | cons t ts ih => cases i <;> simp [pop_at, ih]

theorem length_pop_at (l : List Task) (i : Nat) (h : i < l.length) :
    (pop_at l i).length = l.length - 1 := by
  induction l generalizing i with
  | nil => simp at h
  | cons t ts ih =>
    cases i with
    | zero => simp [pop_at]
    | succ n =>
      have hn : n < ts.length := by simpa using h
      simp only [pop_at, List.length_cons, ih n hn]
      omega

theorem getElem?_pop_at (l : List Task) (i j : Nat) :
    (pop_at l i)[j]? = if j < i then l[j]? else l[j + 1]? := by
  induction l generalizing i j with
  | nil => simp [pop_at]
  | cons t ts ih =>
    cases i with
    | zero => simp [pop_at]
    | succ n =>
      cases j with
      | zero => simp [pop_at]
      | succ m => simpa [pop_at, Nat.succ_lt_succ_iff] using ih n m

theorem mark_completed_natCast (tasks : List Task) (i : Nat) (h : i < tasks.length) :
    mark_completed tasks (i : Int) = setCompleted tasks i := by
  rw [mark_completed, if_pos ⟨Int.natCast_nonneg i, by exact_mod_cast h⟩,
    Int.toNat_natCast]

theorem delete_task_natCast (tasks : List Task) (i : Nat) (h : i < tasks.length) :
    delete_task tasks (i : Int) = pop_at tasks i := by
  rw [delete_task, if_pos ⟨Int.natCast_nonneg i, by exact_mod_cast h⟩,
    Int.toNat_natCast]

/-- C2: for an in-range index, `mark_completed` keeps the length, turns
exactly that task's `completed` flag on while leaving its other fields
alone, leaves every other task unchanged, and is idempotent. -/
theorem mark_completed_spec (tasks : List Task) (i : Nat) (h : i < tasks.length) :
    (mark_completed tasks (i : Int)).length = tasks.length
    ∧ (mark_completed tasks (i : Int))[i]? =
        (tasks[i]?).map (fun t => { t with completed := true })
    ∧ (∀ j : Nat, j ≠ i → (mark_completed tasks (i : Int))[j]? = tasks[j]?)
    ∧ mark_completed (mark_completed tasks (i : Int)) (i : Int) =
        mark_completed tasks (i : Int) := by
  rw [mark_completed_natCast tasks i h]
  refine ⟨length_setCompleted tasks i, ?_, ?_, ?_⟩
  · simp [getElem?_setCompleted]
  · intro j hj
    simp [getElem?_setCompleted, hj]
  · rw [mark_completed_natCast _ i (by rw [length_setCompleted]; exact h)]
    exact setCompleted_setCompleted tasks i

theorem mark_completed_spec_witness :
    0 < ([taskA, taskB]).length
    ∧ (mark_completed [taskA, taskB] ((0 : Nat) : Int)).length = ([taskA, taskB]).length
    ∧ (mark_completed [taskA, taskB] ((0 : Nat) : Int))[(0 : Nat)]? =
        (([taskA, taskB])[(0 : Nat)]?).map (fun t => { t with completed := true })
    ∧ (mark_completed [taskA, taskB] ((0 : Nat) : Int))[(1 : Nat)]? =
        ([taskA, taskB])[(1 : Nat)]?
    ∧ mark_completed (mark_completed [taskA, taskB] ((0 : Nat) : Int)) ((0 : Nat) : Int) =
        mark_completed [taskA, taskB] ((0 : Nat) : Int) := by
  have h := mark_completed_spec [taskA, taskB] 0 (by decide)
  exact ⟨by decide, h.1, h.2.1, h.2.2.1 1 (by decide), h.2.2.2⟩

/-- C3: for any index outside `[0, length)` — negative or at least the
length — both `mark_completed` and `delete_task` leave the task list
unchanged (and no exception is raised: both are total functions here,
mirroring the silent bounds check in the source). -/
theorem out_of_range_noop (tasks : List Task) (i : Int)
    (h : ¬ (0 ≤ i ∧ i < (tasks.length : Int))) :
    mark_completed tasks i = tasks ∧ delete_task tasks i = tasks := by
  rw [mark_completed, if_neg h, delete_task, if_neg h]
  exact ⟨rfl, rfl⟩

theorem out_of_range_noop_witness :
    (¬ (0 ≤ (-1 : Int) ∧ (-1 : Int) < (([taskA]).length : Int)))
    ∧ mark_completed [taskA] (-1) = [taskA]
    ∧ delete_task [taskA] (-1) = [taskA] := by
  have h := out_of_range_noop [taskA] (-1) (by decide)
  exact ⟨by decide, h.1, h.2⟩

/-- C4: for an in-range index, `delete_task` shortens the list by
exactly one and the result is the original list with exactly the task at
that index removed, all other tasks kept in their relative order. -/
theorem delete_task_spec (tasks : List Task) (i : Nat) (h : i < tasks.length) :
    (delete_task tasks (i : Int)).length = tasks.length - 1
    ∧ delete_task tasks (i : Int) = tasks.take i ++ tasks.drop (i + 1) := by
  rw [delete_task_natCast tasks i h]
  exact ⟨length_pop_at tasks i h, pop_at_eq_take_append_drop tasks i⟩

theorem delete_task_spec_witness :
    1 < ([taskA, taskB, taskC]).length
    ∧ (delete_task [taskA, taskB, taskC] ((1 : Nat) : Int)).length =
        ([taskA, taskB, taskC]).length - 1
    ∧ delete_task [taskA, taskB, taskC] ((1 : Nat) : Int) =
        ([taskA, taskB, taskC]).take 1 ++ ([taskA, taskB, taskC]).drop 2
    ∧ delete_task [taskA, taskB, taskC] ((1 : Nat) : Int) = [taskA, taskC] := by
  have h := delete_task_spec [taskA, taskB, taskC] 1 (by decide)
  exact ⟨by decide, h.1, h.2, by decide⟩

/-- C6: `add_task` appends exactly one task at the end, with the given
field values and `completed = false`, and leaves every task already
present unchanged; in particular Scenario A holds concretely. -/
theorem add_task_spec (tasks : List Task) (title description : String)
    (due_date : Option String) :
    (add_task tasks title description due_date).length = tasks.length + 1
    ∧ (add_task tasks title description due_date).take tasks.length = tasks
    ∧ (add_task tasks title description due_date)[tasks.length]? =
        some { title := title, description := description, completed := false,
               due_date := DueField.ofArg due_date }
    ∧ add_task [] "Buy milk" "2%" (some "2025-01-10") =
        [{ title := "Buy milk", description := "2%", completed := false,
           due_date := DueField.date "2025-01-10" }] := by
  refine ⟨by simp [add_task], ?_, ?_, rfl⟩
  · exact List.take_left tasks _
  · exact List.getElem?_concat_length tasks _

theorem decodeTask_encodeTask (t : Task) : decodeTask (encodeTask t) = some t := by
  cases t with
  | mk ti de co dd => cases dd <;> rfl

theorem decode_encode (ts : List Task) : decodeTasks (encodeTasks ts) = some ts := by
  rw [encodeTasks, decodeTasks]
  induction ts with
  | nil => rfl
  | cons t ts ih => simp [decodeList, decodeTask_encodeTask, ih]

/-- C1: saving any task list to a path and then loading from that path
returns exactly the saved list, field by field and in order, whatever
the loading store held before (in particular on a fresh empty store),
and no exception propagates. -/
theorem save_load_round_trip (fs : Filesystem) (tasks prior : List Task) (path : String) :
    load_tasks_run (save_tasks fs tasks path) prior path = (tasks, false) := by
  have hfile : save_tasks fs tasks path path =
      some (FileData.jsonText (encodeTasks tasks)) := if_pos rfl
  simp [load_tasks_run, load_tasks, hfile, decode_encode]

/-- C5: loading from a path holding no file succeeds and resets the
task list to the empty list, whatever the store held before. -/
theorem load_missing_file (fs : Filesystem) (prior : List Task) (path : String)
    (h : fs path = Option.none) :
    load_tasks_run fs prior path = ([], false) := by
  simp [load_tasks_run, load_tasks, h]

theorem load_missing_file_witness :
    ((fun _ : String => (Option.none : Option FileData)) "tasks.json" = Option.none)
    ∧ load_tasks_run (fun _ : String => Option.none) [taskA] "tasks.json" = ([], false) :=
  ⟨rfl, load_missing_file (fun _ => Option.none) [taskA] "tasks.json" rfl⟩

/-- C10: loading from a path holding an unparseable file lets the error
propagate (only `FileNotFoundError` is caught) and, because `json.load`
raises before the assignment to `self.tasks` runs, the in-memory list is
left exactly as it was. -/
theorem load_malformed_atomic (fs : Filesystem) (prior : List Task) (path : String)
    (h : fs path = some FileData.malformed) :
    load_tasks_run fs prior path = (prior, true) := by
  simp [load_tasks_run, load_tasks, h]

theorem load_malformed_atomic_witness :
    ((fun _ : String => some FileData.malformed) "tasks.json" = some FileData.malformed)
    ∧ load_tasks_run (fun _ : String => some FileData.malformed) [taskA] "tasks.json" =
        ([taskA], true) :=
  ⟨rfl, load_malformed_atomic (fun _ => some FileData.malformed) [taskA] "tasks.json" rfl⟩

/-- C7: in the GUI add flow, an empty title raises the blocking warning
box and performs no mutation and no save; a non-empty title appends the
task, clears the title and description inputs, keeps the date input
as-is, shows no warning, and persists the new list to `tasks.json`. -/
theorem app_add_task_spec (st : AppState) :
    (st.task_input = "" →
       (ToDoApp.add_task st).warning = some "Task title cannot be empty"
       ∧ (ToDoApp.add_task st).tasks = st.tasks
       ∧ (ToDoApp.add_task st).fs = st.fs)
    ∧ (st.task_input ≠ "" →
       (ToDoApp.add_task st).tasks =
         st.tasks ++ [{ title := st.task_input, description := st.desc_input,
                        completed := false, due_date := DueField.date st.date_input }]
       ∧ (ToDoApp.add_task st).task_input = ""
       ∧ (ToDoApp.add_task st).desc_input = ""
       ∧ (ToDoApp.add_task st).date_input = st.date_input
       ∧ (ToDoApp.add_task st).warning = Option.none
       ∧ (ToDoApp.add_task st).fs =
           save_tasks st.fs ((ToDoApp.add_task st).tasks) "tasks.json") := by
  constructor
  · intro h
    simp [ToDoApp.add_task, h]
  · intro h
    simp [ToDoApp.add_task, h, add_task, DueField.ofArg]

theorem app_add_task_spec_witness :
    (emptyTitleSt.task_input = ""
      ∧ (ToDoApp.add_task emptyTitleSt).warning = some "Task title cannot be empty"
      ∧ (ToDoApp.add_task emptyTitleSt).tasks = emptyTitleSt.tasks
      ∧ (ToDoApp.add_task emptyTitleSt).fs = emptyTitleSt.fs)
    ∧ (goodSt.task_input ≠ ""
      ∧ (ToDoApp.add_task goodSt).tasks =
          goodSt.tasks ++ [{ title := goodSt.task_input, description := goodSt.desc_input,
                             completed := false, due_date := DueField.date goodSt.date_input }]
      ∧ (ToDoApp.add_task goodSt).task_input = ""
      ∧ (ToDoApp.add_task goodSt).desc_input = ""
      ∧ (ToDoApp.add_task goodSt).date_input = goodSt.date_input
      ∧ (ToDoApp.add_task goodSt).warning = Option.none
      ∧ (ToDoApp.add_task goodSt).fs =
          save_tasks goodSt.fs ((ToDoApp.add_task goodSt).tasks) "tasks.json") := by
  have h1 := (app_add_task_spec emptyTitleSt).1 rfl
  have h2 := (app_add_task_spec goodSt).2 (by decide)
  exact ⟨⟨rfl, h1⟩, ⟨by decide, h2⟩⟩

theorem length_render_from (l : List Task) (s : Nat) :
    (render_from s l).length = l.length := by
  induction l generalizing s with
  | nil => rfl
  | cons t ts ih => simp [render_from, ih]

theorem getElem?_render_from (l : List Task) (s i : Nat) :
    (render_from s l)[i]? = (l[i]?).map (item_text (s + i)) := by
  induction l generalizing s i with
  | nil => simp [render_from]
  | cons t ts ih =>
    cases i with
    | zero => simp [render_from]
    | succ m =>
      have hm := ih (s + 1) m
      rw [show s + 1 + m = s + (m + 1) by omega] at hm
      simpa [render_from] using hm

/-- C8 counterexample: a task whose `due_date` key is present but holds
`None` (built, e.g., by `add_task` with its default argument) is
rendered with the text `None`, not with the placeholder `No due date`:
`dict.get`'s default fires only when the key is absent. -/
theorem render_null_due_date_counterexample :
    update_task_list
        [{ title := "A", description := "d", completed := false, due_date := DueField.null }] =
      ["1. A - Not Done\n d\n Due: None"]
    ∧ ("1. A - Not Done\n d\n Due: None" : String) ≠
        "1. A - Not Done\n d\n Due: No due date" := by
  exact ⟨rfl, by decide⟩

/-- C8 amended: every rendered entry shows, in sequence order, the
1-based position, title, `Done`/`Not Done` status, description, and due
date; the placeholder label is substituted only when the `due_date`
field is missing from the record, while a present-but-null due date
renders as the text `None`. -/
theorem update_task_list_spec (tasks : List Task) (i : Nat) :
    (update_task_list tasks).length = tasks.length
    ∧ (update_task_list tasks)[i]? =
        (tasks[i]?).map (fun t =>
          toString (i + 1) ++ ". " ++ t.title ++ " - " ++ status_text t.completed ++
            "\n " ++ t.description ++ "\n Due: " ++ render_due t.due_date)
    ∧ render_due DueField.missing = "No due date"
    ∧ render_due DueField.null = "None"
    ∧ (∀ s, render_due (DueField.date s) = s)
    ∧ status_text true = "Done" ∧ status_text false = "Not Done" := by
  refine ⟨length_render_from tasks 0, ?_, rfl, rfl, fun s => rfl, rfl, rfl⟩
  have h := getElem?_render_from tasks 0 i
  rw [Nat.zero_add] at h
  exact h

/-- C9: after any single store mutation, every task in the resulting
list is either one of the original tasks (at the same position or the
next one, for deletions) kept verbatim or with its `completed` flag set
to `true`, or the freshly appended task of an `add`, which has
`completed = false`. In particular no operation, hence no sequence of
operations, ever turns an existing task's `completed` flag from `true`
back to `false`. -/
theorem completed_never_unset (tasks : List Task) (op : Op) (j : Nat) (t2 : Task)
    (h : (apply_op tasks op)[j]? = some t2) :
    (∃ t1, (tasks[j]? = some t1 ∨ tasks[j + 1]? = some t1) ∧
        (t2 = t1 ∨ t2 = { t1 with completed := true }))
    ∨ (∃ ti de dd, op = Op.add ti de dd ∧ j = tasks.length
        ∧ t2 = { title := ti, description := de, completed := false,
                 due_date := DueField.ofArg dd }) := by
  cases op with
  | add ti de dd =>
    rw [apply_op, add_task, List.getElem?_append] at h
    by_cases hj : j < tasks.length
    · rw [if_pos hj] at h
      exact Or.inl ⟨t2, Or.inl h, Or.inl rfl⟩
    · rw [if_neg hj] at h
      have hje : j - tasks.length = 0 := by
        by_contra hne
        rcases Nat.exists_eq_succ_of_ne_zero hne with ⟨m, hm⟩
        rw [hm] at h
        simp at h
      rw [hje, List.getElem?_cons_zero] at h
      refine Or.inr ⟨ti, de, dd, rfl, by omega, (Option.some.inj h).symm⟩
  | mark i =>
    rw [apply_op] at h
    by_cases hc : 0 ≤ i ∧ i < (tasks.length : Int)
    · rw [mark_completed, if_pos hc, getElem?_setCompleted] at h
      by_cases hji : j = i.toNat
      · rw [if_pos hji] at h
        rcases Option.map_eq_some'.mp h with ⟨t1, ht1, ht2⟩
        exact Or.inl ⟨t1, Or.inl ht1, Or.inr ht2.symm⟩
      · rw [if_neg hji] at h
        exact Or.inl ⟨t2, Or.inl h, Or.inl rfl⟩
    · rw [mark_completed, if_neg hc] at h
      exact Or.inl ⟨t2, Or.inl h, Or.inl rfl⟩
  | del i =>
    rw [apply_op] at h
    by_cases hc : 0 ≤ i ∧ i < (tasks.length : Int)
    · rw [delete_task, if_pos hc, getElem?_pop_at] at h
      by_cases hji : j < i.toNat
      · rw [if_pos hji] at h
        exact Or.inl ⟨t2, Or.inl h, Or.inl rfl⟩
      · rw [if_neg hji] at h
        exact Or.inl ⟨t2, Or.inr h, Or.inl rfl⟩
    · rw [delete_task, if_neg hc] at h
      exact Or.inl ⟨t2, Or.inl h, Or.inl rfl⟩

theorem completed_never_unset_witness :
    (apply_op [] (Op.add "t" "d" Option.none))[(0 : Nat)]? =
        some { title := "t", description := "d", completed := false,
               due_date := DueField.null }
    ∧ ((∃ t1, ((([] : List Task))[(0 : Nat)]? = some t1
            ∨ (([] : List Task))[(0 : Nat) + 1]? = some t1) ∧
          (({ title := "t", description := "d", completed := false,
              due_date := DueField.null } : Task) = t1
           ∨ ({ title := "t", description := "d", completed := false,
                due_date := DueField.null } : Task) = { t1 with completed := true }))
       ∨ (∃ ti de dd, Op.add "t" "d" Option.none = Op.add ti de dd
           ∧ (0 : Nat) = ([] : List Task).length
           ∧ ({ title := "t", description := "d", completed := false,
                due_date := DueField.null } : Task) =
               { title := ti, description := de, completed := false,
                 due_date := DueField.ofArg dd })) := by
  refine ⟨rfl, ?_⟩
  exact completed_never_unset [] (Op.add "t" "d" Option.none) 0
    { title := "t", description := "d", completed := false, due_date := DueField.null } rfl

end Planner
